import Mathlib

/-!
Verification of the AI-Market prototype (src/prototype/*.py) against its
natural-language specification.  The Python modules are shallowly embedded:
floats that carry money or quality scores become `ℚ` (the source only ever
manipulates decimal literals), `datetime.now()` becomes an explicit `now : Nat`
parameter, fresh `uuid` identifiers become explicit `String` parameters, and
the JSON files become explicit state records threaded through each operation.
Diagnostic note strings and `print` calls, which no specified property
observes, are elided.
-/

set_option maxRecDepth 8000

unseal Rat.add Rat.sub Rat.mul Rat.inv Rat.ofScientific

deriving instance DecidableEq for Except

/-! ### Python string primitives, modelled over `List Char` -/

/-- Whitespace characters recognised by Python's argument-less `str.split`. -/
def pySpace (c : Char) : Bool :=
  c == ' ' || c == '\n' || c == '\t' || c == '\r'

/-- Helper for `pyWords`: `acc` is the current word, reversed. -/
def pyWordsAux : List Char → List Char → List (List Char)
  | acc, [] => if acc.isEmpty then [] else [acc.reverse]
  | acc, c :: rest =>
    if pySpace c then
      if acc.isEmpty then pyWordsAux [] rest else acc.reverse :: pyWordsAux [] rest
    else
      pyWordsAux (c :: acc) rest

/-- Python `s.split()` (split on whitespace runs, no empty words). -/
def pyWords (s : List Char) : List (List Char) :=
  pyWordsAux [] s

/-- Helper for `pyLines`: Python `s.split("\n")` (keeps empty pieces). -/
def pyLinesAux : List Char → List Char → List (List Char)
  | acc, [] => [acc.reverse]
  | acc, c :: rest =>
    if c == '\n' then acc.reverse :: pyLinesAux [] rest
    else pyLinesAux (c :: acc) rest

/-- Python `s.split("\n")`. -/
def pyLines (s : List Char) : List (List Char) :=
  pyLinesAux [] s

/-- Python substring test `sub in hay`. -/
def occursIn (sub : List Char) : List Char → Bool
  | [] => sub.isEmpty
  | c :: rest => sub.isPrefixOf (c :: rest) || occursIn sub rest

/-- Python `sub in hay` on strings. -/
def pyIn (sub hay : String) : Bool :=
  occursIn sub.toList hay.toList

/-- Python `hay.endswith(suf)`. -/
def pyEndsWith (hay suf : String) : Bool :=
  suf.toList.isSuffixOf hay.toList

/-- Helper for `pyCount`: the `Nat` argument counts characters still to skip
after a match (Python's `str.count` counts non-overlapping occurrences). -/
def pyCountAux (pat : List Char) : Nat → List Char → Nat
  | _ + 1, [] => 0
  | skip + 1, _ :: rest => pyCountAux pat skip rest
  | 0, [] => 0
  | 0, c :: rest =>
    if pat.isPrefixOf (c :: rest) && !pat.isEmpty then
      1 + pyCountAux pat (pat.length - 1) rest
    else
      pyCountAux pat 0 rest

/-- Python `hay.count(pat)` for a non-empty pattern. -/
def pyCount (hay pat : String) : Nat :=
  pyCountAux pat.toList 0 hay.toList

/-- Python `s.lower()` (ASCII, as in all inputs the source handles). -/
def pyLower (s : String) : List Char :=
  s.toList.map Char.toLower

/-- Python `s[-n:]` on a character list. -/
def lastChars (n : Nat) (s : List Char) : List Char :=
  s.drop (s.length - n)

/-! ### `validator.py` — automated quality validation -/

namespace ValidatorPy

/-- Quality thresholds dictionary `THRESHOLDS` of `validator.py`. -/
def THRESHOLDS (k : String) : ℚ :=
  if k = "auto_approve" then 0.6
  else if k = "auto_reject" then 0.2
  else if k = "dispute" then 0.4
  else 0

/-- Per-category expected word counts of `check_response_length`
(`expectations.get(category, 40)`). -/
def expectations (category : String) : Nat :=
  if category = "code" then 50
  else if category = "technical" then 80
  else if category = "creative" then 30
  else if category = "general" then 40
  else 40

/-- Embedding of `check_response_length` of `validator.py` (diagnostic note elided). -/
def check_response_length (_prompt response category : String) : ℚ :=
  let words := (pyWords response.toList).length
  let expected := expectations category
  if words < 10 then 0.0
  else if (words : ℚ) < (expected : ℚ) * 0.5 then 0.5
  else if (words : ℚ) > (expected : ℚ) * 5 then 0.7
  else 1.0

/-- The stop-word set `common_words` of `check_relevance`. -/
def common_words : List (List Char) :=
  ["a", "an", "the", "is", "are", "in", "on", "at", "to", "for", "of",
   "and", "or", "that", "this", "with"].map String.toList

/-- Embedding of `check_relevance` of `validator.py`.  Python sets of words are modelled
as deduplicated lists: only membership and cardinality are consumed. -/
def check_relevance (prompt response : String) : ℚ :=
  let prompt_words := ((pyWords (pyLower prompt)).dedup).filter
    (fun w => !(common_words.contains w))
  let response_words := pyWords (pyLower response)
  let overlap := prompt_words.filter (fun w => response_words.contains w)
  let overlap_ratio : ℚ := (overlap.length : ℚ) / (max prompt_words.length 1 : ℚ)
  if overlap_ratio < 0.1 then 0.2
  else if overlap_ratio < 0.3 then 0.5
  else 1.0

/-- The `error_indicators` list of `check_code_quality`. -/
def error_indicators : List String :=
  ["SyntaxError", "TypeError", "NameError", "undefined", "error:"]

/-- Embedding of `check_code_quality` of `validator.py`.  Note the missing upper clamp:
the running score starts at 1.0 and may gain 0.1 for an explanation, and only
`max(0, score)` is applied at the end. -/
def check_code_quality (response : String) : ℚ :=
  let score : ℚ := 1.0
  let has_code := pyIn "```" response || pyIn "def " response || pyIn "function " response
  let score := if !has_code then score - 0.3 else score
  let score := if error_indicators.any
      (fun err => occursIn (pyLower err) (pyLower response)) then score - 0.2 else score
  let has_explanation := ["here\x27s", "this", "explanation", "comment", "note:"].any
      (fun w => occursIn w.toList (pyLower response))
  let score := if has_explanation then score + 0.1 else score
  max 0 score

/-- Embedding of `check_completeness` of `validator.py`. -/
def check_completeness (_prompt response : String) : ℚ :=
  if pyEndsWith response "..." || pyEndsWith response ".." then 0.5
  else if pyIn "```" response && pyCount response "```" % 2 != 0 then 0.4
  else if ["result", "output", "return", "hope this helps", "let me know"].any
      (fun w => occursIn w.toList (lastChars 100 (pyLower response))) then 1.0
  else 0.8

/-- Embedding of `check_format` of `validator.py`. -/
def check_format (response : String) : ℚ :=
  let score : ℚ := 0.7
  let score := if pyIn "#" response || pyIn "**" response || pyIn "- " response
    then score + 0.1 else score
  let score := if pyIn "```" response then score + 0.1 else score
  let score := if (pyLines response.toList).length > 3 then score + 0.1 else score
  min 1.0 score

/-- The fixed check weights of `validate_response` (`weights.get(k, 0.1)`). -/
def weight (k : String) : ℚ :=
  if k = "length" then 0.15
  else if k = "relevance" then 0.35
  else if k = "completeness" then 0.20
  else if k = "format" then 0.10
  else if k = "code_quality" then 0.20
  else 0.1

/-- Python `round(q, 3)` on an exact rational: round half to even. -/
def pyRound3 (q : ℚ) : ℚ :=
  let z := q * 1000
  let f : ℤ := ⌊z⌋
  let frac := z - f
  let r : ℤ :=
    if frac > 1/2 then f + 1
    else if frac < 1/2 then f
    else if f % 2 = 0 then f else f + 1
  (r : ℚ) / 1000

/-- Result dictionary of `validate_response` (`notes` and the echoed
`thresholds` are elided; `breakdown` keeps raw scores). -/
structure ValidationResult where
  quality : ℚ
  recommendation : String
  breakdown : List (String × ℚ)
deriving DecidableEq, Repr

/-- The recommendation if-chain at the end of `validate_response`. -/
def recommendationFor (quality : ℚ) : String :=
  if quality ≥ THRESHOLDS "auto_approve" then "approve"
  else if quality ≤ THRESHOLDS "auto_reject" then "reject"
  else if quality ≤ THRESHOLDS "dispute" then "dispute"
  else "manual_review"

/-- Embedding of `validate_response` of `validator.py`. -/
def validate_response (prompt response : String) (category : String) : ValidationResult :=
  let checks : List (String × ℚ) :=
    [("length", check_response_length prompt response category),
     ("relevance", check_relevance prompt response),
     ("completeness", check_completeness prompt response),
     ("format", check_format response)] ++
    (if category = "code" || category = "technical" then
      [("code_quality", check_code_quality response)]
    else [])
  let total_weight := (checks.map (fun kv => weight kv.1)).sum
  let quality := (checks.map (fun kv => kv.2 * weight kv.1)).sum / total_weight
  { quality := pyRound3 quality
    recommendation := recommendationFor quality
    breakdown := checks }

end ValidatorPy

/-! ### `escrow.py` — escrow state machine and wallet simulation

Each operation loads `escrows.json`, validates, writes back, and raises
`ValueError` on violations.  The two JSON files become the two components of
a `World`; an operation returns its Python return value in `Except String`
(errors are raised before any write, so on error the world is unchanged) along
with the resulting world. -/

namespace EscrowPy

/-- The `EscrowState` enum of `escrow.py`. -/
inductive EState where
  | created
  | assigned
  | submitted
  | approved
  | disputed
  | refunded
deriving DecidableEq, Repr

/-- The `.value` string of an `EscrowState` member. -/
def EState.str : EState → String
  | .created => "created"
  | .assigned => "assigned"
  | .submitted => "submitted"
  | .approved => "approved"
  | .disputed => "disputed"
  | .refunded => "refunded"

/-- One entry of the escrow `history` list (the action-specific payload
fields carry no weight in any claim and are elided). -/
structure HistEntry where
  action : String
  time : Nat
deriving DecidableEq, Repr

/-- One escrow record, with the fields built by `create_escrow`. -/
structure Escrow where
  request_id : String
  requester : String
  bidder : Option String
  amount_locked : ℚ
  amount_paid : ℚ
  state : EState
  created_at : Nat
  assigned_at : Option Nat
  submitted_at : Option Nat
  resolved_at : Option Nat
  updated_at : Option Nat
  result_hash : Option String
  dispute_reason : Option String
  validator : Option String
  history : List HistEntry
deriving DecidableEq, Repr

/-- The persistent state touched by `escrow.py`: `escrows.json` and
`wallets.json`. -/
structure World where
  escrows : List Escrow
  wallets : List (String × ℚ)
deriving DecidableEq, Repr

/-- Embedding of `get_escrow` of `escrow.py`: the loop returning the first record with
the given request id. -/
def get_escrow (request_id : String) : List Escrow → Option Escrow
  | [] => none
  | e :: rest => if e.request_id == request_id then some e else get_escrow request_id rest

/-- Embedding of `update_escrow` of `escrow.py`: merge the update into the first matching
record and stamp `updated_at`.  The update dictionary is the function `f`;
the ignored boolean result is dropped. -/
def update_escrow (request_id : String) (f : Escrow → Escrow) (now : Nat) :
    List Escrow → List Escrow
  | [] => []
  | e :: rest =>
    if e.request_id == request_id then { f e with updated_at := some now } :: rest
    else e :: update_escrow request_id f now rest

/-- Embedding of `create_escrow` of `escrow.py`. -/
def create_escrow (request_id requester : String) (max_price : ℚ) (now : Nat)
    (w : World) : Except String Escrow × World :=
  match get_escrow request_id w.escrows with
  | some _ => (.error ("Escrow already exists for " ++ request_id), w)
  | none =>
    let escrow : Escrow :=
      { request_id := request_id
        requester := requester
        bidder := none
        amount_locked := max_price
        amount_paid := 0.0
        state := .created
        created_at := now
        assigned_at := none
        submitted_at := none
        resolved_at := none
        updated_at := none
        result_hash := none
        dispute_reason := none
        validator := none
        history := [⟨"created", now⟩] }
    (.ok escrow, { w with escrows := w.escrows ++ [escrow] })

/-- Update dictionary of `assign_escrow`. -/
def assign_updates (bidder : String) (bid_price : ℚ) (escrow : Escrow) (now : Nat) :
    Escrow → Escrow := fun e =>
  { e with
    bidder := some bidder
    amount_paid := bid_price
    state := .assigned
    assigned_at := some now
    history := escrow.history ++ [⟨"assigned", now⟩] }

/-- Embedding of `assign_escrow` of `escrow.py`.  Note: there is no `bid_price ≤
amount_locked` check in the source. -/
def assign_escrow (request_id bidder : String) (bid_price : ℚ) (now : Nat)
    (w : World) : Except String Bool × World :=
  match get_escrow request_id w.escrows with
  | none => (.error ("No escrow for " ++ request_id), w)
  | some escrow =>
    if escrow.state ≠ .created then
      (.error ("Escrow not in created state: " ++ escrow.state.str), w)
    else
      (.ok true, { w with escrows := update_escrow request_id (assign_updates bidder bid_price escrow now) now w.escrows })

/-- Update dictionary of `submit_result`. -/
def submit_updates (result_hash : String) (escrow : Escrow) (now : Nat) :
    Escrow → Escrow := fun e =>
  { e with
    result_hash := some result_hash
    state := .submitted
    submitted_at := some now
    history := escrow.history ++ [⟨"submitted", now⟩] }

/-- Embedding of `submit_result` of `escrow.py`. -/
def submit_result (request_id result_hash : String) (now : Nat)
    (w : World) : Except String Bool × World :=
  match get_escrow request_id w.escrows with
  | none => (.error ("No escrow for " ++ request_id), w)
  | some escrow =>
    if escrow.state ≠ .assigned then
      (.error ("Escrow not in assigned state: " ++ escrow.state.str), w)
    else
      (.ok true, { w with escrows := update_escrow request_id (submit_updates result_hash escrow now) now w.escrows })

/-- Return dictionary of `approve_escrow`. -/
structure ApproveResult where
  bidder : Option String
  payment : ℚ
  refund : ℚ
deriving DecidableEq, Repr

/-- Update dictionary of `approve_escrow`. -/
def approve_updates (escrow : Escrow) (now : Nat) : Escrow → Escrow := fun e =>
  { e with
    state := .approved
    resolved_at := some now
    history := escrow.history ++ [⟨"approved", now⟩] }

/-- Embedding of `approve_escrow` of `escrow.py`.  It only authorizes the release: the
wallet store is untouched. -/
def approve_escrow (request_id : String) (now : Nat)
    (w : World) : Except String ApproveResult × World :=
  match get_escrow request_id w.escrows with
  | none => (.error ("No escrow for " ++ request_id), w)
  | some escrow =>
    if escrow.state ≠ .submitted then
      (.error ("Escrow not in submitted state: " ++ escrow.state.str), w)
    else
      let payment := escrow.amount_paid
      let refund := escrow.amount_locked - payment
      (.ok { bidder := escrow.bidder, payment := payment, refund := refund },
        { w with escrows := update_escrow request_id (approve_updates escrow now) now w.escrows })

/-- Update dictionary of `dispute_escrow`. -/
def dispute_updates (reason : String) (escrow : Escrow) (now : Nat) :
    Escrow → Escrow := fun e =>
  { e with
    state := .disputed
    dispute_reason := some reason
    validator := some "validator_001"
    history := escrow.history ++ [⟨"disputed", now⟩] }

/-- Embedding of `dispute_escrow` of `escrow.py`. -/
def dispute_escrow (request_id reason : String) (now : Nat)
    (w : World) : Except String Bool × World :=
  match get_escrow request_id w.escrows with
  | none => (.error ("No escrow for " ++ request_id), w)
  | some escrow =>
    if escrow.state ≠ .submitted then
      (.error ("Escrow not in submitted state: " ++ escrow.state.str), w)
    else
      (.ok true, { w with escrows := update_escrow request_id (dispute_updates reason escrow now) now w.escrows })

/-- Return dictionary of `resolve_dispute` (the `penalty` text is elided). -/
structure ResolveResult where
  decision : String
  payment_to_bidder : ℚ
  refund_to_requester : ℚ
deriving DecidableEq, Repr

/-- Update dictionary of `resolve_dispute`. -/
def resolve_updates (new_state : EState) (escrow : Escrow) (now : Nat) :
    Escrow → Escrow := fun e =>
  { e with
    state := new_state
    resolved_at := some now
    history := escrow.history ++ [⟨"resolved", now⟩] }

/-- Embedding of `resolve_dispute` of `escrow.py`. -/
def resolve_dispute (request_id : String) (valid : Bool) (now : Nat)
    (w : World) : Except String ResolveResult × World :=
  match get_escrow request_id w.escrows with
  | none => (.error ("No escrow for " ++ request_id), w)
  | some escrow =>
    if escrow.state ≠ .disputed then
      (.error ("Escrow not in disputed state: " ++ escrow.state.str), w)
    else
      let result : ResolveResult :=
        if valid then
          { decision := "valid", payment_to_bidder := escrow.amount_paid,
            refund_to_requester := 0 }
        else
          { decision := "invalid", payment_to_bidder := 0,
            refund_to_requester := escrow.amount_locked }
      let new_state : EState := if valid then .approved else .refunded
      (.ok result, { w with escrows := update_escrow request_id (resolve_updates new_state escrow now) now w.escrows })

/-- Update dictionary of `refund_escrow`. -/
def refund_updates (escrow : Escrow) (now : Nat) : Escrow → Escrow := fun e =>
  { e with
    state := .refunded
    resolved_at := some now
    history := escrow.history ++ [⟨"refunded", now⟩] }

/-- Embedding of `refund_escrow` of `escrow.py`.  Note: the source validates no state at
all — any existing escrow is moved to `refunded`. -/
def refund_escrow (request_id reason : String) (now : Nat)
    (w : World) : Except String ℚ × World :=
  match get_escrow request_id w.escrows with
  | none => (.error ("No escrow for " ++ request_id), w)
  | some escrow =>
    let refund := escrow.amount_locked
    (.ok refund, { w with escrows := update_escrow request_id (refund_updates escrow now) now w.escrows })

/-- One escrow operation, for reasoning about operation sequences. -/
inductive EOp where
  | create (request_id requester : String) (max_price : ℚ)
  | assign (request_id bidder : String) (bid_price : ℚ)
  | submitRes (request_id result_hash : String)
  | approve (request_id : String)
  | dispute (request_id reason : String)
  | resolveDisp (request_id : String) (valid : Bool)
  | refund (request_id reason : String)
deriving DecidableEq, Repr

/-- Whether an operation is `create`. -/
def EOp.isCreate : EOp → Bool
  | .create _ _ _ => true
  | _ => false

/-- Apply one operation to the world, keeping the world unchanged when the
operation raises. -/
def step (op : EOp) (now : Nat) (w : World) : World :=
  match op with
  | .create rid rq mp => (create_escrow rid rq mp now w).2
  | .assign rid b p => (assign_escrow rid b p now w).2
  | .submitRes rid h => (submit_result rid h now w).2
  | .approve rid => (approve_escrow rid now w).2
  | .dispute rid r => (dispute_escrow rid r now w).2
  | .resolveDisp rid v => (resolve_dispute rid v now w).2
  | .refund rid r => (refund_escrow rid r now w).2

/-- Run a timed sequence of operations. -/
def run : List (EOp × Nat) → World → World
  | [], w => w
  | (op, t) :: rest, w => run rest (step op t w)

/-- The specified invariant: every stored escrow has `amount_paid ≤
amount_locked`. -/
def Inv (w : World) : Prop :=
  ∀ e ∈ w.escrows, e.amount_paid ≤ e.amount_locked

/-- The precondition the specification imposes on an operation: an assign
pays at most the locked amount of the escrow it targets, and a create locks
a nonnegative amount.  The source enforces neither. -/
def GoodOp (w : World) : EOp → Prop
  | .assign rid _ p => ∀ e ∈ w.escrows, e.request_id = rid → p ≤ e.amount_locked
  | .create _ _ mp => 0 ≤ mp
  | _ => True

/-- A trace all of whose operations satisfy `GoodOp` at the moment they are
applied. -/
def GoodTrace : World → List (EOp × Nat) → Prop
  | _, [] => True
  | w, (op, t) :: rest => GoodOp w op ∧ GoodTrace (step op t w) rest

end EscrowPy

/-! ### `queue_simulator.py` — requests, bids, winner selection

`requests.json` and `bids.json` become the two components of a `QState`
(`results.json` plays no part in any claim).  Fresh `uuid` ids and
`datetime.now()` are explicit parameters. -/

namespace QueuePy

/-- The nested `request` payload dictionary of a request. -/
structure ReqPayload where
  prompt : String
  model_hint : String
  max_tokens : Nat
deriving DecidableEq, Repr

/-- The nested `economics` dictionary of a request. -/
structure Economics where
  max_price_ant : ℚ
  payment_mode : String
deriving DecidableEq, Repr

/-- The nested `requester` dictionary of a request. -/
structure Requester where
  address : String
  reputation : ℚ
deriving DecidableEq, Repr

/-- One record of `requests.json`. -/
structure Request where
  id : String
  status : String
  created : Nat
  expires : Nat
  request : ReqPayload
  economics : Economics
  requester : Requester
  assigned_to : Option String
deriving DecidableEq, Repr

/-- The nested `bidder` dictionary of a bid. -/
structure BidderInfo where
  address : String
  model : String
  reputation : ℚ
deriving DecidableEq, Repr

/-- The nested `bid` dictionary of a bid. -/
structure BidTerms where
  price_ant : ℚ
  estimated_time_s : Nat
  submitted : Nat
deriving DecidableEq, Repr

/-- One record of `bids.json`. -/
structure Bid where
  id : String
  request_id : String
  bidder : BidderInfo
  bid : BidTerms
  status : String
deriving DecidableEq, Repr

/-- The state touched by the queue simulator: `requests.json` and
`bids.json`. -/
structure QState where
  queue : List Request
  bids : List Bid
deriving DecidableEq, Repr

/-- Embedding of `create_request` of `queue_simulator.py` (the fresh `uuid` id and the
current time are explicit parameters). -/
def create_request (prompt : String) (max_price_ant : ℚ) (model_hint : String)
    (max_tokens : Nat) (expires_minutes : Nat) (requester : String)
    (newId : String) (now : Nat) (s : QState) : Request × QState :=
  let request : Request :=
    { id := newId
      status := "open"
      created := now
      expires := now + expires_minutes * 60
      request := { prompt := prompt, model_hint := model_hint, max_tokens := max_tokens }
      economics := { max_price_ant := max_price_ant, payment_mode := "auction" }
      requester := { address := requester, reputation := 0.9 }
      assigned_to := none }
  (request, { s with queue := s.queue ++ [request] })

/-- Embedding of `submit_bid` of `queue_simulator.py`.  Note: the source performs no
validation whatsoever — no open/expiry check on the request and no duplicate
check — it always appends a fresh pending bid. -/
def submit_bid (request_id : String) (price_ant : ℚ) (model : String)
    (bidder : String) (newId : String) (now : Nat) (s : QState) : Bid × QState :=
  let bid : Bid :=
    { id := newId
      request_id := request_id
      bidder := { address := bidder, model := model, reputation := 0.85 }
      bid := { price_ant := price_ant, estimated_time_s := 5, submitted := now }
      status := "pending" }
  (bid, { s with bids := s.bids ++ [bid] })

/-- Embedding of `get_bids_for_request` of `queue_simulator.py`. -/
def get_bids_for_request (request_id : String) (s : QState) : List Bid :=
  s.bids.filter (fun b => b.request_id == request_id)

/-- The eligibility filter inside `select_winner`: reputation above 0.7 and
still pending. -/
def eligible_bids (request_id : String) (s : QState) : List Bid :=
  (get_bids_for_request request_id s).filter
    (fun b => decide ((0.7 : ℚ) < b.bidder.reputation) && (b.status == "pending"))

/-- The sort key of `select_winner` (`eligible.sort(key=price_ant)`). -/
def priceLe (a b : Bid) : Prop :=
  a.bid.price_ant ≤ b.bid.price_ant

instance : DecidableRel priceLe := fun a b =>
  inferInstanceAs (Decidable (a.bid.price_ant ≤ b.bid.price_ant))

instance : IsTotal Bid priceLe := ⟨fun a b => le_total a.bid.price_ant b.bid.price_ant⟩

instance : IsTrans Bid priceLe := ⟨fun _ _ _ => le_trans⟩

/-- The bid-status write-back of `select_winner`: the winner is marked
`won`, every other bid for the request `lost`. -/
def mark_bids (request_id : String) (winner : Bid) (bids : List Bid) : List Bid :=
  bids.map (fun b =>
    if b.id == winner.id then { b with status := "won" }
    else if b.request_id == request_id then { b with status := "lost" }
    else b)

/-- The request-status write-back of `select_winner`. -/
def mark_queue (request_id : String) (winner : Bid) (queue : List Request) : List Request :=
  queue.map (fun r =>
    if r.id == request_id then { r with status := "assigned", assigned_to := some winner.id }
    else r)

/-- Embedding of `select_winner` of `queue_simulator.py`.  Python's `list.sort` is stable;
it is modelled by the (stable) `List.insertionSort`.  The `[]` branch is the
source's early `return None` when no bid is eligible. -/
def select_winner (request_id : String) (s : QState) : Option Bid × QState :=
  match (eligible_bids request_id s).insertionSort priceLe with
  | [] => (none, s)
  | winner :: _ =>
    (some winner,
      { queue := mark_queue request_id winner s.queue,
        bids := mark_bids request_id winner s.bids })

end QueuePy

/-! ### `smart_bidder.py` — reputation tracking (`record_job`) -/

namespace BidderPy

/-- One entry of the reputation `history` list. -/
structure JobEntry where
  timestamp : Nat
  category : String
  price : ℚ
  quality : ℚ
deriving DecidableEq, Repr

/-- The reputation record persisted in `reputation.json`. -/
structure Reputation where
  total_jobs : Nat
  total_earned : ℚ
  average_quality : ℚ
  jobs_by_category : List (String × Nat)
  history : List JobEntry
deriving DecidableEq, Repr

/-- The default reputation record of `load_reputation`. -/
def emptyReputation : Reputation :=
  { total_jobs := 0
    total_earned := 0.0
    average_quality := 0.0
    jobs_by_category := []
    history := [] }

/-- The category-counter update of `record_job` (`if category not in ...:
... = 0` then `+= 1`), on an insertion-ordered association list. -/
def bumpCategory (category : String) : List (String × Nat) → List (String × Nat)
  | [] => [(category, 1)]
  | (k, v) :: rest =>
    if k = category then (k, v + 1) :: rest
    else (k, v) :: bumpCategory category rest

/-- Dictionary lookup `jobs_by_category.get(category, 0)`. -/
def countFor (category : String) : List (String × Nat) → Nat
  | [] => 0
  | (k, v) :: rest => if k = category then v else countFor category rest

/-- Python `l[-n:]`. -/
def takeLast (n : Nat) (l : List α) : List α :=
  l.drop (l.length - n)

/-- Embedding of `record_job` of `smart_bidder.py`. -/
def record_job (now : Nat) (category : String) (price quality : ℚ)
    (rep : Reputation) : Reputation :=
  let average_quality :=
    if rep.average_quality = 0 then quality
    else 0.9 * rep.average_quality + 0.1 * quality
  { total_jobs := rep.total_jobs + 1
    total_earned := rep.total_earned + price
    average_quality := average_quality
    jobs_by_category := bumpCategory category rep.jobs_by_category
    history := takeLast 100 (rep.history ++
      [{ timestamp := now, category := category, price := price, quality := quality }]) }

end BidderPy

/-! ### Concrete test fixtures used by counterexamples and witnesses -/

/-- A request that expired at time 10, still marked open. -/
def c3_req : QueuePy.Request :=
  { id := "r1"
    status := "open"
    created := 0
    expires := 10
    request := { prompt := "p", model_hint := "any", max_tokens := 500 }
    economics := { max_price_ant := 0.5, payment_mode := "auction" }
    requester := { address := "alice", reputation := 0.9 }
    assigned_to := none }

/-- An existing pending bid from bidder `x` on request `r1`. -/
def c3_bid : QueuePy.Bid :=
  { id := "b1"
    request_id := "r1"
    bidder := { address := "x", model := "m", reputation := 0.85 }
    bid := { price_ant := 0.1, estimated_time_s := 5, submitted := 1 }
    status := "pending" }

/-- Queue state for the C3 counterexample. -/
def c3_state : QueuePy.QState :=
  { queue := [c3_req], bids := [c3_bid] }

/-- Prompt of the C6 counterexample. -/
def c6_prompt : String := "write python function add"

/-- Response of the C6 counterexample: a well-formed, on-topic, complete,
formatted code answer with an explanation — every check scores its maximum,
and `check_code_quality` scores 1.1. -/
def c6_response : String :=
  "# add function\n```python\ndef add(a, b):\n    return a + b\n```\nthis is the python function add you asked for. it takes two numbers a and b and gives back their sum as the result. nice and clear code."

/-! ### Shared helper lemmas -/

lemma recommendationFor_cases (q : ℚ) :
    ValidatorPy.recommendationFor q = "approve" ∨
    ValidatorPy.recommendationFor q = "reject" ∨
    ValidatorPy.recommendationFor q = "dispute" ∨
    ValidatorPy.recommendationFor q = "manual_review" := by
  unfold ValidatorPy.recommendationFor
  split
  · exact Or.inl rfl
  split
  · exact Or.inr (Or.inl rfl)
  split
  · exact Or.inr (Or.inr (Or.inl rfl))
  · exact Or.inr (Or.inr (Or.inr rfl))

lemma countFor_bumpCategory (category : String) :
    ∀ m : List (String × Nat),
      BidderPy.countFor category (BidderPy.bumpCategory category m) =
        BidderPy.countFor category m + 1 := by
  intro m
  induction m with
  | nil => simp [BidderPy.bumpCategory, BidderPy.countFor]
  | cons kv rest ih =>
    obtain ⟨k, v⟩ := kv
    by_cases hk : k = category
    · simp [BidderPy.bumpCategory, BidderPy.countFor, hk]
    · simp [BidderPy.bumpCategory, BidderPy.countFor, hk, ih]

lemma takeLast_length_le (n : Nat) (l : List α) : (BidderPy.takeLast n l).length ≤ n := by
  simp [BidderPy.takeLast]
  omega

/-! ### Claim theorems -/

/-- C8: `record_job(category, price, quality)` increments `total_jobs` by one,
adds `price` to `total_earned`, seeds `average_quality` with `quality` when the
previous average is 0 and otherwise applies the EMA `0.9*prev + 0.1*quality`
(so 0.8 then 0.4 from average 0 yields 0.8 then 0.76), increments the
per-category counter, and appends one entry to a history bounded at 100
entries, evicting the oldest first (the new history is a suffix of the old one
plus the appended entry). -/
theorem C8_record_job_properties :
    (∀ (rep : BidderPy.Reputation) (now : Nat) (category : String) (price quality : ℚ),
      (BidderPy.record_job now category price quality rep).total_jobs = rep.total_jobs + 1 ∧
      (BidderPy.record_job now category price quality rep).total_earned
        = rep.total_earned + price ∧
      (BidderPy.record_job now category price quality rep).average_quality
        = (if rep.average_quality = 0 then quality
           else 0.9 * rep.average_quality + 0.1 * quality) ∧
      BidderPy.countFor category (BidderPy.record_job now category price quality rep).jobs_by_category
        = BidderPy.countFor category rep.jobs_by_category + 1 ∧
      (BidderPy.record_job now category price quality rep).history.length ≤ 100 ∧
      (BidderPy.record_job now category price quality rep).history <:+
        rep.history ++ [{ timestamp := now, category := category,
                          price := price, quality := quality }]) ∧
    (BidderPy.record_job 0 "c" 0 0.8 BidderPy.emptyReputation).average_quality = 0.8 ∧
    (BidderPy.record_job 1 "c" 0 0.4
        (BidderPy.record_job 0 "c" 0 0.8 BidderPy.emptyReputation)).average_quality = 0.76 := by
  refine ⟨fun rep now category price quality => ⟨rfl, rfl, rfl, ?_, ?_, ?_⟩, by decide, by decide⟩
  · exact countFor_bumpCategory category rep.jobs_by_category
  · exact takeLast_length_le 100 _
  · exact List.drop_suffix _ _

/-- C3 counterexample: `submit_bid` performs no duplicate or expiry check.
With a request that expired at time 10 and an existing pending bid from
bidder `x`, a second bid from `x` submitted at time 20 is still appended, so
two Bid records for the same (request, bidder) pair exist — refuting the
claimed rejections. -/
theorem C3_cex_duplicate_bid_on_expired_request :
    c3_req.expires ≤ 20 ∧ c3_req.status = "open" ∧
    ((QueuePy.submit_bid "r1" 0.2 "m" "x" "b2" 20 c3_state).2.bids.filter
        (fun b => b.request_id == "r1" && b.bidder.address == "x")).length = 2 ∧
    (QueuePy.submit_bid "r1" 0.2 "m" "x" "b2" 20 c3_state).1.status = "pending" := by
  decide

/-- C3 (amended): `submit_bid` validates nothing: for any state and any
arguments it appends exactly one fresh pending bid with the given request id,
bidder, and price, and leaves the request queue unchanged — duplicate
(request, bidder) bids and bids on closed or expired requests are recorded. -/
theorem C3_submit_bid_appends_unconditionally :
    ∀ (s : QueuePy.QState) (rid : String) (price : ℚ) (model bidder newId : String) (now : Nat),
      (QueuePy.submit_bid rid price model bidder newId now s).2.bids
        = s.bids ++ [(QueuePy.submit_bid rid price model bidder newId now s).1] ∧
      (QueuePy.submit_bid rid price model bidder newId now s).2.queue = s.queue ∧
      (QueuePy.submit_bid rid price model bidder newId now s).1.status = "pending" ∧
      (QueuePy.submit_bid rid price model bidder newId now s).1.request_id = rid ∧
      (QueuePy.submit_bid rid price model bidder newId now s).1.bidder.address = bidder ∧
      (QueuePy.submit_bid rid price model bidder newId now s).1.bid.price_ant = price := by
  intro s rid price model bidder newId now
  exact ⟨rfl, rfl, rfl, rfl, rfl, rfl⟩

/-- C6: the claim that `validate_response` always returns a quality in [0,1]
fails: `check_code_quality` has no upper clamp, so a well-formed code response
with an explanation scores 1.1 there.  On the input below every other check
scores 1.0 and the weighted average is 1.02 > 1, contradicting the
function's own documented range. -/
theorem C6_quality_exceeds_one :
    (ValidatorPy.validate_response c6_prompt c6_response "code").quality = 1.02 ∧
    ¬ (ValidatorPy.validate_response c6_prompt c6_response "code").quality ≤ 1 ∧
    ValidatorPy.check_code_quality c6_response = 1.1 := by
  refine ⟨by decide, by decide, by decide⟩

/-- C7 counterexample: on empty prompt and empty response the checks score
0, 0.2, 0.8, 0.7, the weighted average is 0.375 ≤ dispute threshold 0.4, and
the recommendation is `dispute`, not `manual_review`. -/
theorem C7_cex_empty_inputs_give_dispute :
    (ValidatorPy.validate_response "" "" "general").recommendation = "dispute" ∧
    (ValidatorPy.validate_response "" "" "general").recommendation ≠ "manual_review" ∧
    (ValidatorPy.validate_response "" "" "general").quality = 0.375 := by
  refine ⟨by decide, by decide, by decide⟩

/-- C7 (amended): quality validation is total — for every prompt, response
and category it produces one of the four recommendations `approve`, `reject`,
`dispute`, `manual_review` — and on degenerate inputs (empty response and
empty prompt) the recommendation is `dispute` (quality 0.375 falls in the
dispute band), not `manual_review`. -/
theorem C7_validation_total :
    (∀ (prompt response category : String),
      (ValidatorPy.validate_response prompt response category).recommendation = "approve" ∨
      (ValidatorPy.validate_response prompt response category).recommendation = "reject" ∨
      (ValidatorPy.validate_response prompt response category).recommendation = "dispute" ∨
      (ValidatorPy.validate_response prompt response category).recommendation = "manual_review") ∧
    (ValidatorPy.validate_response "" "" "general").recommendation = "dispute" := by
  exact ⟨fun prompt response category => recommendationFor_cases _, by decide⟩

namespace EscrowPy

lemma mem_update_escrow {rid : String} {f : Escrow → Escrow} {now : Nat} :
    ∀ {es : List Escrow} {x : Escrow}, x ∈ update_escrow rid f now es →
      x ∈ es ∨ ∃ e, e ∈ es ∧ (e.request_id == rid) = true ∧
        x = { f e with updated_at := some now } := by
  intro es
  induction es with
  | nil => intro x hx; simp [update_escrow] at hx
  | cons a rest ih =>
    intro x hx
    by_cases ha : (a.request_id == rid) = true
    · simp only [update_escrow, if_pos ha] at hx
      rcases List.mem_cons.mp hx with h | h
      · exact Or.inr ⟨a, List.mem_cons_self a rest, ha, h⟩
      · exact Or.inl (List.mem_cons_of_mem a h)
    · simp only [update_escrow, if_neg ha] at hx
      rcases List.mem_cons.mp hx with h | h
      · exact Or.inl (h ▸ List.mem_cons_self a rest)
      · rcases ih h with h' | ⟨e, he, hrid, hx'⟩
        · exact Or.inl (List.mem_cons_of_mem a h')
        · exact Or.inr ⟨e, List.mem_cons_of_mem a he, hrid, hx'⟩

lemma get_escrow_update {rid : String} {f : Escrow → Escrow} {now : Nat}
    (hf : ∀ x, (f x).request_id = x.request_id) :
    ∀ {es : List Escrow} {e : Escrow}, get_escrow rid es = some e →
      get_escrow rid (update_escrow rid f now es)
        = some { f e with updated_at := some now } := by
  intro es
  induction es with
  | nil => intro e he; simp [get_escrow] at he
  | cons a rest ih =>
    intro e he
    by_cases ha : (a.request_id == rid) = true
    · simp only [get_escrow, if_pos ha] at he
      injection he with he
      subst he
      simp only [update_escrow, if_pos ha, get_escrow]
      rw [if_pos (show (({ f a with updated_at := some now } : Escrow).request_id == rid) = true
        from by show ((f a).request_id == rid) = true; rw [hf a]; exact ha)]
    · simp only [get_escrow, if_neg ha] at he
      simp only [update_escrow, if_neg ha, get_escrow]
      exact ih he

lemma step_preserves_Inv (op : EOp) (now : Nat) (w : World)
    (hI : Inv w) (hg : GoodOp w op) : Inv (step op now w) := by
  cases op with
  | create rid rq mp =>
    simp only [step, create_escrow]
    cases hget : get_escrow rid w.escrows with
    | some e => exact hI
    | none =>
      dsimp only
      intro x hx
      rcases List.mem_append.mp hx with h | h
      · exact hI x h
      · rcases List.mem_singleton.mp h with rfl
        exact hg
  | assign rid b p =>
    simp only [step, assign_escrow]
    cases hget : get_escrow rid w.escrows with
    | none => exact hI
    | some escrow =>
      dsimp only
      split
      · exact hI
      · intro x hx
        rcases mem_update_escrow hx with h | ⟨e, he, hrid, rfl⟩
        · exact hI x h
        · exact hg e he (by simpa using hrid)
  | submitRes rid rh =>
    simp only [step, submit_result]
    cases hget : get_escrow rid w.escrows with
    | none => exact hI
    | some escrow =>
      dsimp only
      split
      · exact hI
      · intro x hx
        rcases mem_update_escrow hx with h | ⟨e, he, _, rfl⟩
        · exact hI x h
        · exact hI e he
  | approve rid =>
    simp only [step, approve_escrow]
    cases hget : get_escrow rid w.escrows with
    | none => exact hI
    | some escrow =>
      dsimp only
      split
      · exact hI
      · intro x hx
        rcases mem_update_escrow hx with h | ⟨e, he, _, rfl⟩
        · exact hI x h
        · exact hI e he
  | dispute rid reason =>
    simp only [step, dispute_escrow]
    cases hget : get_escrow rid w.escrows with
    | none => exact hI
    | some escrow =>
      dsimp only
      split
      · exact hI
      · intro x hx
        rcases mem_update_escrow hx with h | ⟨e, he, _, rfl⟩
        · exact hI x h
        · exact hI e he
  | resolveDisp rid valid =>
    simp only [step, resolve_dispute]
    cases hget : get_escrow rid w.escrows with
    | none => exact hI
    | some escrow =>
      dsimp only
      split
      · exact hI
      · intro x hx
        rcases mem_update_escrow hx with h | ⟨e, he, _, rfl⟩
        · exact hI x h
        · exact hI e he
  | refund rid reason =>
    simp only [step, refund_escrow]
    cases hget : get_escrow rid w.escrows with
    | none => exact hI
    | some escrow =>
      dsimp only
      intro x hx
      rcases mem_update_escrow hx with h | ⟨e, he, _, rfl⟩
      · exact hI x h
      · exact hI e he

instance decInv (w : World) : Decidable (Inv w) :=
  inferInstanceAs (Decidable (∀ e ∈ w.escrows, e.amount_paid ≤ e.amount_locked))

instance decGoodOp (w : World) : (op : EOp) → Decidable (GoodOp w op)
  | .create _ _ mp => inferInstanceAs (Decidable (0 ≤ mp))
  | .assign rid _ p =>
    inferInstanceAs (Decidable (∀ e ∈ w.escrows, e.request_id = rid → p ≤ e.amount_locked))
  | .submitRes _ _ => inferInstanceAs (Decidable True)
  | .approve _ => inferInstanceAs (Decidable True)
  | .dispute _ _ => inferInstanceAs (Decidable True)
  | .resolveDisp _ _ => inferInstanceAs (Decidable True)
  | .refund _ _ => inferInstanceAs (Decidable True)

instance decGoodTrace : (tr : List (EOp × Nat)) → (w : World) → Decidable (GoodTrace w tr)
  | [], _ => inferInstanceAs (Decidable True)
  | (op, t) :: rest, w =>
    have : Decidable (GoodTrace (step op t w) rest) := decGoodTrace rest (step op t w)
    inferInstanceAs (Decidable (GoodOp w op ∧ GoodTrace (step op t w) rest))

end EscrowPy

namespace EscrowPy

/-- Pairwise preservation of the identifying and funding fields of the
escrow store (same records in the same order, with `request_id`,
`requester` and `amount_locked` untouched). -/
def preserves_core (es es2 : List Escrow) : Prop :=
  List.Forall₂ (fun e e2 => e2.request_id = e.request_id ∧ e2.requester = e.requester ∧
    e2.amount_locked = e.amount_locked) es es2

lemma preserves_core_refl : ∀ es : List Escrow, preserves_core es es := by
  intro es
  induction es with
  | nil => exact List.Forall₂.nil
  | cons a rest ih => exact List.Forall₂.cons ⟨rfl, rfl, rfl⟩ ih

lemma preserves_core_update (rid : String) (f : Escrow → Escrow) (now : Nat)
    (hf : ∀ x, (f x).request_id = x.request_id ∧ (f x).requester = x.requester ∧
      (f x).amount_locked = x.amount_locked) :
    ∀ es, preserves_core es (update_escrow rid f now es) := by
  intro es
  induction es with
  | nil => exact List.Forall₂.nil
  | cons a rest ih =>
    simp only [update_escrow]
    split
    · exact List.Forall₂.cons ⟨(hf a).1, (hf a).2.1, (hf a).2.2⟩ (preserves_core_refl rest)
    · exact List.Forall₂.cons ⟨rfl, rfl, rfl⟩ ih

end EscrowPy

/-- Escrow world with no escrows, the `load_escrows` default. -/
def c1_w0 : EscrowPy.World := { escrows := [], wallets := [] }

/-- World holding the single escrow produced by `create_escrow("r1","alice",1)`. -/
def c1_w1 : EscrowPy.World := (EscrowPy.create_escrow "r1" "alice" 1 0 c1_w0).2

/-- A trace whose assigns and creates respect the specified preconditions. -/
def c1_good_tr : List (EscrowPy.EOp × Nat) :=
  [(.create "r1" "alice" 1, 0), (.assign "r1" "bob" 0.5, 1),
   (.submitRes "r1" "h", 2), (.approve "r1", 3)]

/-- C1 counterexample: `assign_escrow` does not require `price ≤
amount_locked`.  After `create("r1","alice",1)`, the call
`assign("r1","bob",2)` succeeds and mutates the escrow to ASSIGNED with
`amount_paid = 2 > 1 = amount_locked`, breaking the claimed invariant. -/
theorem C1_cex_assign_exceeds_locked :
    (EscrowPy.assign_escrow "r1" "bob" 2 1 c1_w1).1 = .ok true ∧
    (EscrowPy.get_escrow "r1" (EscrowPy.assign_escrow "r1" "bob" 2 1 c1_w1).2.escrows).map
        (fun e => (e.amount_paid, e.amount_locked, e.state))
      = some (2, 1, EscrowPy.EState.assigned) ∧
    ¬ ((2 : ℚ) ≤ (1 : ℚ)) := by
  refine ⟨by decide, by decide, by decide⟩

/-- C1 (amended): `assign` checks only that the escrow is CREATED — it has no
price check, and an assign with `price > amount_locked` succeeds and breaks
the invariant.  The invariant `amount_paid ≤ amount_locked` does hold after
every operation of any trace in which each create locks a nonnegative amount
and each assign pays at most the locked amount of its target escrow. -/
theorem C1_invariant_for_good_traces :
    ∀ (ops : List (EscrowPy.EOp × Nat)) (w : EscrowPy.World),
      EscrowPy.Inv w → EscrowPy.GoodTrace w ops → EscrowPy.Inv (EscrowPy.run ops w) := by
  intro ops
  induction ops with
  | nil => intro w h _; exact h
  | cons p rest ih =>
    intro w h hg
    obtain ⟨op, t⟩ := p
    exact ih (EscrowPy.step op t w) (EscrowPy.step_preserves_Inv op t w h hg.1) hg.2

/-- C1 witness: the invariant theorem applied to a concrete good trace. -/
theorem C1_invariant_witness :
    EscrowPy.Inv c1_w0 ∧ EscrowPy.GoodTrace c1_w0 c1_good_tr ∧
    EscrowPy.Inv (EscrowPy.run c1_good_tr c1_w0) :=
  ⟨by decide, by decide, C1_invariant_for_good_traces c1_good_tr c1_w0 (by decide) (by decide)⟩

/-- An escrow sitting in state SUBMITTED, as left by create → assign →
submit_result. -/
def submittedEscrow : EscrowPy.Escrow :=
  { request_id := "r1"
    requester := "alice"
    bidder := some "bob"
    amount_locked := 1
    amount_paid := 0.5
    state := .submitted
    created_at := 0
    assigned_at := some 1
    submitted_at := some 2
    resolved_at := none
    updated_at := some 2
    result_hash := some "h"
    dispute_reason := none
    validator := none
    history := [⟨"created", 0⟩, ⟨"assigned", 1⟩, ⟨"submitted", 2⟩] }

/-- World holding `submittedEscrow` only. -/
def submittedWorld : EscrowPy.World := { escrows := [submittedEscrow], wallets := [] }

/-- C2 counterexample: `refund_escrow` validates no state.  Called on an
escrow in state SUBMITTED it succeeds, returns the locked amount, and moves
the escrow to REFUNDED — the claim says it must fail and leave the record
unchanged. -/
theorem C2_cex_refund_on_submitted :
    submittedEscrow.state = .submitted ∧
    (EscrowPy.refund_escrow "r1" "cancelled" 5 submittedWorld).1 = .ok 1 ∧
    (EscrowPy.get_escrow "r1"
        (EscrowPy.refund_escrow "r1" "cancelled" 5 submittedWorld).2.escrows).map
      EscrowPy.Escrow.state = some .refunded := by
  refine ⟨by decide, by decide, by decide⟩

/-- C2 (amended): `assign`, `submitResult`, `approve`, `dispute` and
`resolveDispute` validate the current state and, on mismatch, fail with an
error naming the expected state and leave the store unchanged; `refund`
performs no state validation at all — on any existing escrow, whatever its
state, it succeeds, returns `amount_locked`, and moves the escrow to
REFUNDED. -/
theorem C2_state_checks_except_refund :
    ∀ (w : EscrowPy.World) (rid bidder rhash reason : String) (p : ℚ) (valid : Bool)
      (now : Nat) (e : EscrowPy.Escrow),
      EscrowPy.get_escrow rid w.escrows = some e →
      ((e.state ≠ .created → EscrowPy.assign_escrow rid bidder p now w
          = (.error ("Escrow not in created state: " ++ e.state.str), w)) ∧
       (e.state ≠ .assigned → EscrowPy.submit_result rid rhash now w
          = (.error ("Escrow not in assigned state: " ++ e.state.str), w)) ∧
       (e.state ≠ .submitted → EscrowPy.approve_escrow rid now w
          = (.error ("Escrow not in submitted state: " ++ e.state.str), w)) ∧
       (e.state ≠ .submitted → EscrowPy.dispute_escrow rid reason now w
          = (.error ("Escrow not in submitted state: " ++ e.state.str), w)) ∧
       (e.state ≠ .disputed → EscrowPy.resolve_dispute rid valid now w
          = (.error ("Escrow not in disputed state: " ++ e.state.str), w)) ∧
       (EscrowPy.refund_escrow rid reason now w).1 = .ok e.amount_locked ∧
       (EscrowPy.get_escrow rid
           (EscrowPy.refund_escrow rid reason now w).2.escrows).map EscrowPy.Escrow.state
         = some .refunded) := by
  intro w rid bidder rhash reason p valid now e hget
  refine ⟨?_, ?_, ?_, ?_, ?_, ?_, ?_⟩
  · intro hs
    simp only [EscrowPy.assign_escrow, hget]
    rw [if_pos hs]
  · intro hs
    simp only [EscrowPy.submit_result, hget]
    rw [if_pos hs]
  · intro hs
    simp only [EscrowPy.approve_escrow, hget]
    rw [if_pos hs]
  · intro hs
    simp only [EscrowPy.dispute_escrow, hget]
    rw [if_pos hs]
  · intro hs
    simp only [EscrowPy.resolve_dispute, hget]
    rw [if_pos hs]
  · simp only [EscrowPy.refund_escrow, hget]
  · simp only [EscrowPy.refund_escrow, hget]
    rw [EscrowPy.get_escrow_update
      (show ∀ x, ((EscrowPy.refund_updates e now) x).request_id = x.request_id
        from fun _ => rfl) hget]
    rfl

/-- C2 witness: the amended theorem applied to the submitted-state world —
`assign` fails there and `refund` still succeeds. -/
theorem C2_state_checks_witness :
    EscrowPy.get_escrow "r1" submittedWorld.escrows = some submittedEscrow ∧
    EscrowPy.assign_escrow "r1" "bob" 0.5 5 submittedWorld
      = (.error ("Escrow not in created state: " ++ submittedEscrow.state.str), submittedWorld) ∧
    (EscrowPy.refund_escrow "r1" "x" 5 submittedWorld).1 = .ok submittedEscrow.amount_locked := by
  have H := C2_state_checks_except_refund submittedWorld "r1" "bob" "h" "x" 0.5 true 5
    submittedEscrow (by decide)
  exact ⟨by decide, H.1 (by decide), H.2.2.2.2.2.1⟩

/-- C5: `approve`, called on an escrow in state SUBMITTED, returns the triple
(bidder, amount_paid, refund = amount_locked − amount_paid), moves the escrow
to APPROVED (leaving both amounts and the bidder unchanged), and performs no
fund transfer itself: the wallet store is untouched. -/
theorem C5_approve_authorizes_release :
    ∀ (w : EscrowPy.World) (rid : String) (now : Nat) (e : EscrowPy.Escrow),
      EscrowPy.get_escrow rid w.escrows = some e →
      e.state = .submitted →
      (EscrowPy.approve_escrow rid now w).1
        = .ok { bidder := e.bidder, payment := e.amount_paid,
                refund := e.amount_locked - e.amount_paid } ∧
      (EscrowPy.approve_escrow rid now w).2.wallets = w.wallets ∧
      (EscrowPy.get_escrow rid (EscrowPy.approve_escrow rid now w).2.escrows).map
          (fun x => (x.state, x.amount_paid, x.amount_locked, x.bidder))
        = some (.approved, e.amount_paid, e.amount_locked, e.bidder) := by
  intro w rid now e hget hstate
  have hne : ¬ (e.state ≠ EscrowPy.EState.submitted) := by simp [hstate]
  refine ⟨?_, ?_, ?_⟩
  · simp only [EscrowPy.approve_escrow, hget]
    rw [if_neg hne]
  · simp only [EscrowPy.approve_escrow, hget]
    rw [if_neg hne]
  · simp only [EscrowPy.approve_escrow, hget]
    rw [if_neg hne]
    dsimp only
    rw [EscrowPy.get_escrow_update
      (show ∀ x, ((EscrowPy.approve_updates e now) x).request_id = x.request_id
        from fun _ => rfl) hget]
    rfl

/-- C5 witness: approving the concrete submitted escrow pays 0.5 to bob,
refunds 0.5, and leaves the wallets untouched. -/
theorem C5_approve_witness :
    EscrowPy.get_escrow "r1" submittedWorld.escrows = some submittedEscrow ∧
    submittedEscrow.state = .submitted ∧
    (EscrowPy.approve_escrow "r1" 5 submittedWorld).1
      = .ok { bidder := submittedEscrow.bidder, payment := submittedEscrow.amount_paid,
              refund := submittedEscrow.amount_locked - submittedEscrow.amount_paid } ∧
    (EscrowPy.approve_escrow "r1" 5 submittedWorld).2.wallets = submittedWorld.wallets := by
  have H := C5_approve_authorizes_release submittedWorld "r1" 5 submittedEscrow
    (by decide) (by decide)
  exact ⟨by decide, by decide, H.1, H.2.1⟩

/-- C9: every escrow operation other than create leaves `request_id`,
`requester` and `amount_locked` of every stored escrow unchanged — each
operation merges only its own update fields into the matching record. -/
theorem C9_frame_preservation :
    ∀ (op : EscrowPy.EOp) (now : Nat) (w : EscrowPy.World),
      op.isCreate = false →
      EscrowPy.preserves_core w.escrows (EscrowPy.step op now w).escrows := by
  intro op now w hop
  cases op with
  | create rid rq mp => simp [EscrowPy.EOp.isCreate] at hop
  | assign rid b p =>
    simp only [EscrowPy.step, EscrowPy.assign_escrow]
    cases hget : EscrowPy.get_escrow rid w.escrows with
    | none => exact EscrowPy.preserves_core_refl _
    | some escrow =>
      dsimp only
      split
      · exact EscrowPy.preserves_core_refl _
      · exact EscrowPy.preserves_core_update _ (EscrowPy.assign_updates b p escrow now) _ (fun x => ⟨rfl, rfl, rfl⟩) _
  | submitRes rid rh =>
    simp only [EscrowPy.step, EscrowPy.submit_result]
    cases hget : EscrowPy.get_escrow rid w.escrows with
    | none => exact EscrowPy.preserves_core_refl _
    | some escrow =>
      dsimp only
      split
      · exact EscrowPy.preserves_core_refl _
      · exact EscrowPy.preserves_core_update _ (EscrowPy.submit_updates rh escrow now) _ (fun x => ⟨rfl, rfl, rfl⟩) _
  | approve rid =>
    simp only [EscrowPy.step, EscrowPy.approve_escrow]
    cases hget : EscrowPy.get_escrow rid w.escrows with
    | none => exact EscrowPy.preserves_core_refl _
    | some escrow =>
      dsimp only
      split
      · exact EscrowPy.preserves_core_refl _
      · exact EscrowPy.preserves_core_update _ (EscrowPy.approve_updates escrow now) _ (fun x => ⟨rfl, rfl, rfl⟩) _
  | dispute rid reason =>
    simp only [EscrowPy.step, EscrowPy.dispute_escrow]
    cases hget : EscrowPy.get_escrow rid w.escrows with
    | none => exact EscrowPy.preserves_core_refl _
    | some escrow =>
      dsimp only
      split
      · exact EscrowPy.preserves_core_refl _
      · exact EscrowPy.preserves_core_update _ (EscrowPy.dispute_updates reason escrow now) _ (fun x => ⟨rfl, rfl, rfl⟩) _
  | resolveDisp rid valid =>
    simp only [EscrowPy.step, EscrowPy.resolve_dispute]
    cases hget : EscrowPy.get_escrow rid w.escrows with
    | none => exact EscrowPy.preserves_core_refl _
    | some escrow =>
      dsimp only
      split
      · exact EscrowPy.preserves_core_refl _
      · exact EscrowPy.preserves_core_update _ (EscrowPy.resolve_updates (if valid then EscrowPy.EState.approved else EscrowPy.EState.refunded) escrow now) _ (fun x => ⟨rfl, rfl, rfl⟩) _
  | refund rid reason =>
    simp only [EscrowPy.step, EscrowPy.refund_escrow]
    cases hget : EscrowPy.get_escrow rid w.escrows with
    | none => exact EscrowPy.preserves_core_refl _
    | some escrow =>
      dsimp only
      exact EscrowPy.preserves_core_update _ (EscrowPy.refund_updates escrow now) _ (fun x => ⟨rfl, rfl, rfl⟩) _

/-- C9 witness: refunding the concrete submitted escrow preserves its
identifying and funding fields. -/
theorem C9_frame_witness :
    EscrowPy.EOp.isCreate (.refund "r1" "cancel") = false ∧
    EscrowPy.preserves_core submittedWorld.escrows
      (EscrowPy.step (.refund "r1" "cancel") 5 submittedWorld).escrows :=
  ⟨by decide, C9_frame_preservation (.refund "r1" "cancel") 5 submittedWorld (by decide)⟩

namespace QueuePy

lemma select_winner_of_eligible_nil {rid : String} {s : QState}
    (h : eligible_bids rid s = []) : select_winner rid s = (none, s) := by
  simp [select_winner, h]

lemma status_mark_bids {rid : String} {winner : Bid} {bids : List Bid} :
    ∀ b ∈ mark_bids rid winner bids, (b.request_id == rid) = true →
      b.status = "won" ∨ b.status = "lost" := by
  intro b hb hrid
  rcases List.mem_map.mp hb with ⟨b0, _, rfl⟩
  by_cases h1 : (b0.id == winner.id) = true
  · left
    simp only [if_pos h1]
  · by_cases h2 : (b0.request_id == rid) = true
    · right
      simp only [if_neg h1, if_pos h2]
    · exfalso
      simp only [if_neg h1, if_neg h2] at hrid
      exact h2 hrid

lemma eligible_mark_nil (rid : String) (winner : Bid) (q : List Request) (bids : List Bid) :
    eligible_bids rid { queue := q, bids := mark_bids rid winner bids } = [] := by
  rw [eligible_bids, List.filter_eq_nil_iff]
  intro b hb
  have hbm : b ∈ mark_bids rid winner bids ∧ (b.request_id == rid) = true := by
    simpa [get_bids_for_request, List.mem_filter] using hb
  rcases status_mark_bids b hbm.1 hbm.2 with hs | hs <;>
    simp [hs]

end QueuePy

/-- A pending bid from bidder `z` on request `r1`, submitted at time 10. -/
def c4_bZ : QueuePy.Bid :=
  { id := "bidZ"
    request_id := "r1"
    bidder := { address := "z", model := "m", reputation := 0.85 }
    bid := { price_ant := 0.05, estimated_time_s := 5, submitted := 10 }
    status := "pending" }

/-- A pending bid from bidder `a` on request `r1` at the same price,
submitted earlier (time 5). -/
def c4_bA : QueuePy.Bid :=
  { id := "bidA"
    request_id := "r1"
    bidder := { address := "a", model := "m", reputation := 0.85 }
    bid := { price_ant := 0.05, estimated_time_s := 5, submitted := 5 }
    status := "pending" }

/-- Queue state for the C4 counterexample: the later-submitted bid is stored
first. -/
def c4_state : QueuePy.QState := { queue := [], bids := [c4_bZ, c4_bA] }

/-- C4 counterexample: two eligible bids tie on price; the code picks the one
stored first in the bid list (`z`, submitted at time 10), not the one with
the earliest submission timestamp (`a`, submitted at time 5) — the claimed
timestamp-then-bidder-id tie-break does not exist. -/
theorem C4_cex_tie_breaks_by_list_position :
    (QueuePy.select_winner "r1" c4_state).1 = some c4_bZ ∧
    c4_bZ.bid.price_ant = c4_bA.bid.price_ant ∧
    c4_bA.bid.submitted < c4_bZ.bid.submitted ∧
    c4_bA ∈ QueuePy.eligible_bids "r1" c4_state ∧
    c4_bZ.bidder.address ≠ c4_bA.bidder.address := by
  refine ⟨by decide, by decide, by decide, by decide, by decide⟩

/-- C4 (amended): when `select_winner` returns a winner, the winner is an
eligible bid (pending, reputation above 0.7) with the lowest offered price
among the eligible bids; ties are broken by position in the stored bid list
(Python's stable sort), not by timestamp or bidder id; and the selection is
deterministic in that it depends only on the stored bid list: any state with
the same bid list yields the same winner. -/
theorem C4_lowest_price_deterministic :
    ∀ (rid : String) (s : QueuePy.QState) (w : QueuePy.Bid),
      (QueuePy.select_winner rid s).1 = some w →
      w ∈ QueuePy.eligible_bids rid s ∧
      (∀ b ∈ QueuePy.eligible_bids rid s, w.bid.price_ant ≤ b.bid.price_ant) ∧
      (∀ s2 : QueuePy.QState, s2.bids = s.bids →
        (QueuePy.select_winner rid s2).1 = some w) := by
  intro rid s w h
  cases hsort : (QueuePy.eligible_bids rid s).insertionSort QueuePy.priceLe with
  | nil =>
    simp only [QueuePy.select_winner, hsort] at h
    exact Option.noConfusion h
  | cons winner rest =>
    simp only [QueuePy.select_winner, hsort, Option.some.injEq] at h
    subst h
    have hperm := List.perm_insertionSort QueuePy.priceLe (QueuePy.eligible_bids rid s)
    rw [hsort] at hperm
    refine ⟨?_, ?_, ?_⟩
    · exact hperm.mem_iff.mp (List.mem_cons_self _ _)
    · intro b hb
      have hsorted := List.sorted_insertionSort QueuePy.priceLe (QueuePy.eligible_bids rid s)
      rw [hsort] at hsorted
      rcases List.mem_cons.mp (hperm.mem_iff.mpr hb) with rfl | hbr
      · exact le_refl _
      · exact List.rel_of_sorted_cons hsorted b hbr
    · intro s2 hbids
      have he : QueuePy.eligible_bids rid s2 = QueuePy.eligible_bids rid s := by
        simp [QueuePy.eligible_bids, QueuePy.get_bids_for_request, hbids]
      simp only [QueuePy.select_winner, he, hsort]

/-- C4 witness: the amended theorem applied to the concrete tie state. -/
theorem C4_amended_witness :
    (QueuePy.select_winner "r1" c4_state).1 = some c4_bZ ∧
    c4_bZ ∈ QueuePy.eligible_bids "r1" c4_state ∧
    (∀ b ∈ QueuePy.eligible_bids "r1" c4_state, c4_bZ.bid.price_ant ≤ b.bid.price_ant) := by
  have H := C4_lowest_price_deterministic "r1" c4_state c4_bZ (by decide)
  exact ⟨by decide, H.1, H.2.1⟩

/-- C10: `select_winner` is retry-safe after success: once it has returned a
winner for a request (marking it `won` and all other bids for the request
`lost`), a second call on the resulting state returns no winner and changes
nothing, because no bid for the request is still pending. -/
theorem C10_select_winner_retry_safe :
    ∀ (rid : String) (s : QueuePy.QState) (w : QueuePy.Bid),
      (QueuePy.select_winner rid s).1 = some w →
      QueuePy.select_winner rid (QueuePy.select_winner rid s).2
        = (none, (QueuePy.select_winner rid s).2) := by
  intro rid s w h
  cases hsort : (QueuePy.eligible_bids rid s).insertionSort QueuePy.priceLe with
  | nil =>
    simp only [QueuePy.select_winner, hsort] at h
    exact Option.noConfusion h
  | cons winner rest =>
    have h2 : (QueuePy.select_winner rid s).2
        = { queue := QueuePy.mark_queue rid winner s.queue,
            bids := QueuePy.mark_bids rid winner s.bids } := by
      simp only [QueuePy.select_winner, hsort]
    rw [h2]
    exact QueuePy.select_winner_of_eligible_nil (QueuePy.eligible_mark_nil rid winner _ _)

/-- An open request for the C10 witness. -/
def c10_req : QueuePy.Request :=
  { id := "r1"
    status := "open"
    created := 0
    expires := 3600
    request := { prompt := "p", model_hint := "any", max_tokens := 500 }
    economics := { max_price_ant := 0.5, payment_mode := "auction" }
    requester := { address := "alice", reputation := 0.9 }
    assigned_to := none }

/-- A single pending bid for the C10 witness. -/
def c10_bid : QueuePy.Bid :=
  { id := "b1"
    request_id := "r1"
    bidder := { address := "bob", model := "m", reputation := 0.85 }
    bid := { price_ant := 0.1, estimated_time_s := 5, submitted := 1 }
    status := "pending" }

/-- Queue state for the C10 witness. -/
def c10_state : QueuePy.QState := { queue := [c10_req], bids := [c10_bid] }

/-- C10 witness: after the concrete first selection succeeds, the second call
returns no winner and leaves the state unchanged. -/
theorem C10_retry_witness :
    (QueuePy.select_winner "r1" c10_state).1 = some c10_bid ∧
    QueuePy.select_winner "r1" (QueuePy.select_winner "r1" c10_state).2
      = (none, (QueuePy.select_winner "r1" c10_state).2) :=
  ⟨by decide, C10_select_winner_retry_safe "r1" c10_state c10_bid (by decide)⟩
